import Mathlib

/-!
Shallow embedding of `proxy.py` (vc-500w_autocut): a TCP proxy between a
print client and a Brother VC-500W printer that injects a
`<cutmode>full</cutmode>` line into small XML job descriptors.

Byte strings are modelled as `List Nat` (byte values); ASCII literals are
written through `bstr`.  Pure functions of the source (`modify_xml`) are
translated directly; the effectful parts (socket reads, the select loop,
the close protocol, the listener) are modelled as explicit state passing
and event traces.
-/

namespace VC500W

/-- ASCII byte-string literal: the bytes of `s`, as Python writes byte
literals such as `b"</print>"`. -/
def bstr (s : String) : List Nat := s.toList.map Char.toNat

/-- `MAX_DATA_IMG = 20000000` of proxy.py: hard cap on one read from the
client socket. -/
def MAX_DATA_IMG : Nat := 20000000

/-- `MAX_DATA_XML = 50000` of proxy.py: descriptor-classification size
threshold, also the cap on one read from the printer socket. -/
def MAX_DATA_XML : Nat := 50000

/-- The closing marker `b"</print>"` searched by `modify_xml`. -/
def end_tag : List Nat := bstr "</print>"

/-- The injected directive `b"<cutmode>full</cutmode>\n"` (`new_line` in
proxy.py line 100). -/
def new_line : List Nat := bstr "<cutmode>full</cutmode>\n"

/-- Python `data.find(pat)` on byte strings, as an `Option`: index of the
first occurrence of `pat` in `data`, `none` when absent (Python returns -1). -/
def bytesFind (data pat : List Nat) : Option Nat :=
  if pat.isPrefixOf data then some 0
  else
    match data with
    | [] => none
    | _ :: rest => (bytesFind rest pat).map (fun n => n + 1)

/-- `modify_xml` of proxy.py lines 67-103: chunks longer than
`MAX_DATA_XML` are returned unchanged (treated as picture data); otherwise
the first occurrence of `</print>` is located and, when present,
`<cutmode>full</cutmode>\n` is inserted immediately before it
(`data[:end_tag_pos] + new_line + data[end_tag_pos:]`). -/
def modify_xml (data : List Nat) : List Nat :=
  if data.length > MAX_DATA_XML then
    data
  else
    match bytesFind data end_tag with
    | none => data
    | some p => data.take p ++ new_line ++ data.drop p

/-- The per-read cap of proxy.py line 229:
`max_bytes = MAX_DATA_IMG if sock is client_socket else MAX_DATA_XML`.
`sockIsClient` mirrors the test `sock is client_socket`. -/
def read_max_bytes (sockIsClient : Bool) : Nat :=
  if sockIsClient then MAX_DATA_IMG else MAX_DATA_XML

/-- `socket_read` of proxy.py lines 106-124: `sock.recv(max_bytes)` returns
at most `max_bytes` bytes of the bytes available on the socket, modelled as
a take of the available stream. -/
def socket_read (avail : List Nat) (maxBytes : Nat) : List Nat :=
  avail.take maxBytes

/-- The body of the forwarding loop of `client_thread` (proxy.py lines
226-244) for one non-empty chunk: the chunk is passed through `modify_xml`
regardless of which socket it was read from (line 240 applies to both
directions), and the destination is the printer socket exactly when the
source was the client socket (line 243).  Returns
(destination is printer socket, bytes written by `socket_write`). -/
def forward_step (sockIsClient : Bool) (data : List Nat) : Bool × List Nat :=
  (sockIsClient, modify_xml data)

/-- `socket_wait_readable` of proxy.py lines 163-186, run against a
schedule of loop iterations.  Each schedule entry is
(`stop_event.is_set()` at the `while` check, the readable list `select`
returns at that iteration).  The loop exits with the readable list as soon
as it is non-empty; when the stop flag is observed the `while` loop falls
through and the Python function returns `None`, modelled as `some none`.
An exhausted schedule (`none`) means the loop is still waiting. -/
def socket_wait_readable : List (Bool × List Nat) → Option (Option (List Nat))
  | [] => none
  | (stop, ready) :: rest =>
    if stop then some none
    else if ready.isEmpty then socket_wait_readable rest
    else some (some ready)

/-- Outcome of one iteration of the `while` loop of `client_thread`
(proxy.py lines 220-244). -/
inductive IterOutcome
  /-- The loop condition at line 220 is false: control reaches the
  `socket_close` calls at lines 246-250 (orderly close of both legs). -/
  | exitOrderly
  /-- `socket_wait_readable` returned Python `None` and line 226 executes
  `for sock in readable:` on `None`, raising `TypeError`; the exception
  propagates out of `client_thread`, skipping both `socket_close` calls. -/
  | crashTypeError
  /-- A non-empty readable list is processed by the loop body. -/
  | forwards (socks : List Nat)
  /-- The schedule ended while the wait was still looping. -/
  | undecided
deriving DecidableEq

/-- One iteration of the forwarding loop of `client_thread`:
the `while not stop_event.is_set() and not exit_flag` check (line 220),
then `socket_wait_readable` (line 223), then the `for sock in readable:`
header (line 226).  Iterating over `None` is a Python `TypeError`. -/
def client_loop_iteration (stopAtCheck exitFlag : Bool)
    (sched : List (Bool × List Nat)) : IterOutcome :=
  if stopAtCheck || exitFlag then IterOutcome.exitOrderly
  else
    match socket_wait_readable sched with
    | none => IterOutcome.undecided
    | some none => IterOutcome.crashTypeError
    | some (some socks) => IterOutcome.forwards socks

/-- One TCP socket of a session, as `socket_close` sees it: whether our
write side is still open, the chunks the peer will still deliver before
its end-of-stream, and whether the socket has been fully closed. -/
structure TcpSock where
  wrOpen : Bool
  pending : List (List Nat)
  closed : Bool

/-- Events a socket operation emits, for stating trace properties of the
close protocol. -/
inductive SockEv
  /-- `sock.shutdown(socket.SHUT_WR)`: the half-close (FIN) signal. -/
  | shutdownWR
  /-- `sock.recv(1024)` returned this non-empty chunk; it is discarded. -/
  | recvChunk (data : List Nat)
  /-- `sock.recv(1024)` returned `b""`: the peer's end-of-stream. -/
  | recvEOF
  /-- `sock.close()`: the socket is fully closed. -/
  | closeSock
  /-- `sock.sendall(data)`: bytes forwarded to a peer (never emitted by
  the close protocol). -/
  | sendData (data : List Nat)
deriving DecidableEq

/-- The drain loop of `socket_close` (proxy.py lines 154-157): read and
discard until `recv` returns an empty byte string. -/
def drain_recv : List (List Nat) → List SockEv
  | [] => [SockEv.recvEOF]
  | c :: rest =>
    if c.isEmpty then [SockEv.recvEOF]
    else SockEv.recvChunk c :: drain_recv rest

/-- `socket_close` of proxy.py lines 139-160: shut down the write side,
read until end-of-stream discarding everything, then close.  Returns the
final socket state and the trace of operations performed. -/
def socket_close (s : TcpSock) : TcpSock × List SockEv :=
  (⟨false, [], true⟩,
   SockEv.shutdownWR :: (drain_recv s.pending ++ [SockEv.closeSock]))

/-- The epilogue of `client_thread` (proxy.py lines 246-250): once the
forwarding loop is left, `socket_close` runs on the printer socket, then
on the client socket. -/
def session_close (printerSock clientSock : TcpSock) :
    (TcpSock × TcpSock) × List SockEv :=
  (((socket_close printerSock).1, (socket_close clientSock).1),
   (socket_close printerSock).2 ++ (socket_close clientSock).2)

/-- True of the events the drain phase may emit: receives only. -/
def isRecvEv : SockEv → Bool
  | SockEv.recvChunk _ => true
  | SockEv.recvEOF => true
  | _ => false

/-- Inputs the listener loop reacts to, in program order: an inbound
connection becomes acceptable, a running session thread terminates, or
the stop event is observed set. -/
inductive LEvent
  /-- A client connects; accepting it spawns session thread `i`. -/
  | conn (i : Nat)
  /-- Session thread `i` terminates (its `is_alive()` becomes false). -/
  | ended (i : Nat)
  /-- `stop_event.is_set()` is observed true by the listener loop. -/
  | cancel
deriving DecidableEq

/-- Actions of `listener_thread` visible to the shutdown claim. -/
inductive LTrace
  /-- `listener.accept()` accepted the connection spawning thread `i`. -/
  | accept (i : Nat)
  /-- `thread.join()` on session thread `i`. -/
  | joinThread (i : Nat)
  /-- `listener.close()` releasing the listening socket. -/
  | closeListener
deriving DecidableEq

/-- The listener's mutable state: `client_thread_list` (ids of spawned
session threads still tracked) and the set of ids whose thread has
terminated (`is_alive()` false). -/
structure LState where
  threads : List Nat
  ended : List Nat

/-- `listener_thread` of proxy.py lines 253-305 run on a finite event
list.  A `conn` before cancellation is accepted, its thread appended to
`client_thread_list`, and the list pruned of terminated threads (lines
286-298).  Observing `cancel` breaks the loop (lines 276, 282-283); then
every thread still in the list is joined (lines 301-302) and the listener
socket is closed (line 305).  `none` means the event list ended with the
loop still waiting. -/
def listener_run : List LEvent → LState → Option (List LTrace)
  | [], _ => none
  | LEvent.cancel :: _, s =>
    some (s.threads.map LTrace.joinThread ++ [LTrace.closeListener])
  | LEvent.ended i :: rest, s =>
    listener_run rest ⟨s.threads, i :: s.ended⟩
  | LEvent.conn i :: rest, s =>
    (listener_run rest
        ⟨(s.threads ++ [i]).filter (fun j => !(s.ended.contains j)), s.ended⟩).map
      (fun tr => LTrace.accept i :: tr)

/-- `handle_exit` of proxy.py lines 41-64 together with the listener: the
signal handler sets the stop event, joins the listener thread (which runs
`listener_run` to completion), and then calls `sys.exit(0)`.  Returns the
listener trace paired with the process exit status. -/
def handle_exit_run (events : List LEvent) : Option (List LTrace × Nat) :=
  (listener_run events ⟨[], []⟩).map (fun tr => (tr, 0))

/-- Ids of the connections accepted before the first `cancel` event: the
specification-side description of what the listener accepts. -/
def acceptsOf : List LEvent → List Nat
  | [] => []
  | LEvent.cancel :: _ => []
  | LEvent.ended _ :: rest => acceptsOf rest
  | LEvent.conn i :: rest => i :: acceptsOf rest

/-- Ids of the session threads that terminated before the first `cancel`
event: the sessions no longer active at cancellation time. -/
def endedOf : List LEvent → List Nat
  | [] => []
  | LEvent.cancel :: _ => []
  | LEvent.ended i :: rest => i :: endedOf rest
  | LEvent.conn _ :: rest => endedOf rest

/-- Whether the event list contains a `cancel` before running out. -/
def hasCancel : List LEvent → Bool
  | [] => false
  | LEvent.cancel :: _ => true
  | _ :: rest => hasCancel rest

/-- The contents of `client_thread_list` at the moment the listener
observes cancellation, computed in lockstep with `listener_run`. -/
def finalThreads : List LEvent → LState → List Nat
  | [], s => s.threads
  | LEvent.cancel :: _, s => s.threads
  | LEvent.ended i :: rest, s => finalThreads rest ⟨s.threads, i :: s.ended⟩
  | LEvent.conn i :: rest, s =>
    finalThreads rest
      ⟨(s.threads ++ [i]).filter (fun j => !(s.ended.contains j)), s.ended⟩

/-- The operations proxy.py performs on the `threading.Event` stop flag:
`stop_event.set()` (line 58), `stop_event.is_set()` (lines 182, 220, 276,
282) and `stop_event.wait(...)` (line 123).  No `clear()` call occurs
anywhere in the program. -/
inductive FlagOp
  | setOp
  | isSetOp
  | waitOp
deriving DecidableEq

/-- Effect of each stop-flag operation on the flag's value, following
`threading.Event` semantics: `set()` makes it true, `is_set()` and
`wait()` only observe it. -/
def flag_apply : FlagOp → Bool → Bool
  | FlagOp.setOp, _ => true
  | FlagOp.isSetOp, b => b
  | FlagOp.waitOp, b => b

end VC500W

namespace VC500W

theorem bytesFind_isPrefixOf (data pat : List Nat) (p : Nat)
    (h : bytesFind data pat = some p) :
    pat.isPrefixOf (data.drop p) = true ∧
      ∀ q, q < p → pat.isPrefixOf (data.drop q) = false := by
  induction data generalizing p with
  | nil =>
    rw [bytesFind] at h
    by_cases hp : pat.isPrefixOf ([] : List Nat) = true
    · simp [hp] at h
      subst h
      exact ⟨hp, fun q hq => absurd hq (Nat.not_lt_zero q)⟩
    · simp [hp] at h
  | cons d rest ih =>
    rw [bytesFind] at h
    by_cases hp : pat.isPrefixOf (d :: rest) = true
    · simp [hp] at h
      subst h
      exact ⟨hp, fun q hq => absurd hq (Nat.not_lt_zero q)⟩
    · simp [hp] at h
      obtain ⟨p', hfind, hsucc⟩ := h
      subst hsucc
      obtain ⟨h1, h2⟩ := ih p' hfind
      refine ⟨h1, ?_⟩
      intro q hq
      match q with
      | 0 => simpa using Bool.eq_false_iff.mpr hp
      | Nat.succ q' =>
        have : q' < p' := Nat.lt_of_succ_lt_succ hq
        simpa using h2 q' this

theorem bytesFind_of_first_occ (data pat : List Nat) (p : Nat)
    (h1 : pat.isPrefixOf (data.drop p) = true)
    (h2 : ∀ q, q < p → pat.isPrefixOf (data.drop q) = false) :
    bytesFind data pat = some p := by
  induction data generalizing p with
  | nil =>
    have hp0 : p = 0 := by
      by_contra hne
      have : 0 < p := Nat.pos_of_ne_zero hne
      have := h2 0 this
      simp at this
      rw [List.drop_nil] at h1
      rw [this] at h1
      exact Bool.false_ne_true h1
    subst hp0
    rw [List.drop_nil] at h1
    rw [bytesFind, h1]
    rfl
  | cons d rest ih =>
    match p with
    | 0 =>
      rw [List.drop_zero] at h1
      rw [bytesFind, h1]
      rfl
    | Nat.succ p' =>
      have hp : pat.isPrefixOf (d :: rest) = false := by
        have := h2 0 (Nat.succ_pos p')
        simpa using this
      rw [bytesFind, hp]
      simp only [Bool.false_eq_true, if_false]
      have hrest : bytesFind rest pat = some p' := by
        apply ih
        · simpa using h1
        · intro q hq
          have := h2 (q + 1) (Nat.succ_lt_succ hq)
          simpa using this
      rw [hrest]
      rfl

theorem bytesFind_eq_none (data pat : List Nat)
    (h : ∀ q, pat.isPrefixOf (data.drop q) = false) :
    bytesFind data pat = none := by
  induction data with
  | nil =>
    have h0 := h 0
    rw [List.drop_nil] at h0
    rw [bytesFind, h0]
    rfl
  | cons d rest ih =>
    have h0 : pat.isPrefixOf (d :: rest) = false := by simpa using h 0
    rw [bytesFind, h0]
    simp only [Bool.false_eq_true, if_false]
    have : bytesFind rest pat = none := by
      apply ih
      intro q
      simpa using h (q + 1)
    rw [this]
    rfl

theorem modify_xml_insert (data : List Nat) (p : Nat)
    (hlen : data.length ≤ MAX_DATA_XML)
    (h1 : end_tag.isPrefixOf (data.drop p) = true)
    (h2 : ∀ q, q < p → end_tag.isPrefixOf (data.drop q) = false) :
    modify_xml data = data.take p ++ new_line ++ data.drop p := by
  have hfind := bytesFind_of_first_occ data end_tag p h1 h2
  rw [modify_xml]
  rw [if_neg (by omega : ¬ data.length > MAX_DATA_XML)]
  rw [hfind]

theorem modify_xml_no_marker (data : List Nat)
    (hlen : data.length ≤ MAX_DATA_XML)
    (h : ∀ q, end_tag.isPrefixOf (data.drop q) = false) :
    modify_xml data = data := by
  have hfind := bytesFind_eq_none data end_tag h
  rw [modify_xml]
  rw [if_neg (by omega : ¬ data.length > MAX_DATA_XML)]
  rw [hfind]

theorem modify_xml_big (data : List Nat)
    (hlen : MAX_DATA_XML < data.length) :
    modify_xml data = data := by
  rw [modify_xml]
  rw [if_pos (by omega : data.length > MAX_DATA_XML)]

theorem isPrefixOf_append_self (l t : List Nat) : l.isPrefixOf (l ++ t) = true := by
  induction l with
  | nil => simp [List.isPrefixOf]
  | cons a as ih => simp [List.isPrefixOf, ih]

theorem drain_recv_only_recv (l : List (List Nat)) :
    ∀ e ∈ drain_recv l, isRecvEv e = true := by
  induction l with
  | nil =>
    intro e he
    simp [drain_recv] at he
    subst he
    rfl
  | cons c rest ih =>
    intro e he
    rw [drain_recv] at he
    by_cases hc : c.isEmpty = true
    · simp [hc] at he
      subst he
      rfl
    · simp [hc] at he
      rcases he with he | he
      · subst he
        rfl
      · exact ih e he

theorem sendData_not_mem_drain (d : List Nat) (l : List (List Nat)) :
    SockEv.sendData d ∉ drain_recv l := by
  intro hmem
  have := drain_recv_only_recv l _ hmem
  simp [isRecvEv] at this

theorem listener_run_trace (events : List LEvent) (s : LState)
    (h : hasCancel events = true) :
    listener_run events s
      = some ((acceptsOf events).map LTrace.accept
          ++ ((finalThreads events s).map LTrace.joinThread
            ++ [LTrace.closeListener])) := by
  induction events generalizing s with
  | nil => simp [hasCancel] at h
  | cons ev rest ih =>
    cases ev with
    | cancel => simp [listener_run, acceptsOf, finalThreads]
    | ended i =>
      have hrest : hasCancel rest = true := by simpa [hasCancel] using h
      simp [listener_run, acceptsOf, finalThreads, ih ⟨s.threads, i :: s.ended⟩ hrest]
    | conn i =>
      have hrest : hasCancel rest = true := by simpa [hasCancel] using h
      simp [listener_run, acceptsOf, finalThreads, ih _ hrest]

theorem mem_finalThreads (events : List LEvent) (s : LState) (i : Nat)
    (hin : i ∈ s.threads ∨ i ∈ acceptsOf events)
    (hne : i ∉ s.ended) (hnee : i ∉ endedOf events) :
    i ∈ finalThreads events s := by
  induction events generalizing s with
  | nil =>
    rcases hin with hin | hin
    · simpa [finalThreads] using hin
    · simp [acceptsOf] at hin
  | cons ev rest ih =>
    cases ev with
    | cancel =>
      rcases hin with hin | hin
      · simpa [finalThreads] using hin
      · simp [acceptsOf] at hin
    | ended j =>
      simp only [endedOf, List.mem_cons, not_or] at hnee
      rw [finalThreads]
      apply ih
      · rcases hin with hin | hin
        · exact Or.inl hin
        · exact Or.inr (by simpa [acceptsOf] using hin)
      · simp [hnee.1, hne]
      · exact hnee.2
    | conn j =>
      simp only [endedOf] at hnee
      rw [finalThreads]
      apply ih
      · rcases hin with hin | hin
        · left
          rw [List.mem_filter]
          refine ⟨List.mem_append_left _ hin, ?_⟩
          simp [hne]
        · rcases (by simpa [acceptsOf] using hin : i = j ∨ i ∈ acceptsOf rest) with hij | hin
          · subst hij
            left
            rw [List.mem_filter]
            refine ⟨List.mem_append_right _ (List.mem_singleton_self i), ?_⟩
            simp [hne]
          · exact Or.inr hin
      · exact hne
      · exact hnee

/-- C1: the rewrite is not one-directional.  The body of the forwarding
loop (proxy.py line 240) applies `modify_xml` to every chunk regardless of
which socket it was read from, so a descriptor-sized chunk containing
`</print>` read from the printer socket (`sockIsClient = false`) is
rewritten before being written to the client: the bytes written differ
from the bytes read, contradicting the claim. -/
theorem C1_upstream_chunk_rewritten :
    (bstr "<print></print>").length ≤ MAX_DATA_XML ∧
    (forward_step false (bstr "<print></print>")).1 = false ∧
    (forward_step false (bstr "<print></print>")).2 ≠ bstr "<print></print>" ∧
    (forward_step false (bstr "<print></print>")).2
      = bstr "<print><cutmode>full</cutmode>\n</print>" := by
  decide

/-- C2: when the stop event becomes set while `socket_wait_readable` is
polling with no socket readable, the function returns Python `None`
(`some none` here); `client_thread` then runs `for sock in readable:` on
`None`, raising `TypeError` instead of reaching the orderly-close code.
Schedule: first iteration stop clear and nothing readable, second
iteration stop set. -/
theorem C2_cancel_mid_wait_crash :
    socket_wait_readable [(false, []), (true, [])] = some none ∧
    client_loop_iteration false false [(false, []), (true, [])]
      = IterOutcome.crashTypeError ∧
    client_loop_iteration false false [(false, []), (true, [])]
      ≠ IterOutcome.exitOrderly := by
  decide

/-- C3: for a chunk shorter than the descriptor threshold, `modify_xml`
inserts `<cutmode>full</cutmode>\n` immediately before the first
occurrence of `</print>` (all other bytes unchanged, in order), returns
the chunk unchanged when the marker is absent, and on
`b"<print><job>1</job></print>"` produces
`b"<print><job>1</job><cutmode>full</cutmode>\n</print>"`. -/
theorem C3_descriptor_rewrite :
    (∀ (data : List Nat) (p : Nat), data.length < MAX_DATA_XML →
        end_tag.isPrefixOf (data.drop p) = true →
        (∀ q, q < p → end_tag.isPrefixOf (data.drop q) = false) →
        modify_xml data = data.take p ++ new_line ++ data.drop p) ∧
    (∀ data : List Nat, data.length < MAX_DATA_XML →
        (∀ q, end_tag.isPrefixOf (data.drop q) = false) →
        modify_xml data = data) ∧
    modify_xml (bstr "<print><job>1</job></print>")
      = bstr "<print><job>1</job><cutmode>full</cutmode>\n</print>" := by
  refine ⟨?_, ?_, by decide⟩
  · intro data p hlen h1 h2
    exact modify_xml_insert data p (Nat.le_of_lt hlen) h1 h2
  · intro data hlen h
    exact modify_xml_no_marker data (Nat.le_of_lt hlen) h

/-- C3 witness: a concrete chunk `b"ab</print>cd"` with first marker
occurrence at index 2 is rewritten exactly there. -/
theorem C3_descriptor_rewrite_witness :
    modify_xml (bstr "ab</print>cd")
      = (bstr "ab</print>cd").take 2 ++ new_line ++ (bstr "ab</print>cd").drop 2 :=
  C3_descriptor_rewrite.1 (bstr "ab</print>cd") 2 (by decide) (by decide) (by decide)

/-- C4: a chunk strictly longer than `MAX_DATA_XML` is returned by
`modify_xml` unchanged (the length test at proxy.py line 85 returns it
before any marker search), and the forwarding step on the client leg
therefore writes it byte-for-byte. -/
theorem C4_oversize_passthrough (data : List Nat)
    (h : MAX_DATA_XML < data.length) :
    modify_xml data = data ∧ (forward_step true data).2 = data := by
  have hm := modify_xml_big data h
  exact ⟨hm, hm⟩

/-- C4 witness: a 25,000,000-byte chunk is forwarded unchanged. -/
theorem C4_oversize_passthrough_witness :
    MAX_DATA_XML < (List.replicate 25000000 0).length ∧
    modify_xml (List.replicate 25000000 0) = List.replicate 25000000 0 := by
  have hlen : MAX_DATA_XML < (List.replicate 25000000 0).length := by
    rw [List.length_replicate]
    norm_num [MAX_DATA_XML]
  exact ⟨hlen, (C4_oversize_passthrough (List.replicate 25000000 0) hlen).1⟩

/-- C5: once the forwarding loop is left, `session_close` (proxy.py lines
246-250) drives both legs through `socket_close`: each leg's trace is
exactly write-shutdown, then reads only (the drain, whose data appears in
no send event), then full close; both sockets end fully closed. -/
theorem C5_orderly_close (p c : TcpSock) :
    (session_close p c).1.1.closed = true ∧
    (session_close p c).1.1.wrOpen = false ∧
    (session_close p c).1.2.closed = true ∧
    (session_close p c).1.2.wrOpen = false ∧
    (∃ dp dc : List SockEv,
      (session_close p c).2
        = (SockEv.shutdownWR :: (dp ++ [SockEv.closeSock]))
          ++ (SockEv.shutdownWR :: (dc ++ [SockEv.closeSock])) ∧
      (∀ e ∈ dp, isRecvEv e = true) ∧ (∀ e ∈ dc, isRecvEv e = true)) ∧
    (∀ d : List Nat, SockEv.sendData d ∉ (session_close p c).2) := by
  refine ⟨rfl, rfl, rfl, rfl,
    ⟨drain_recv p.pending, drain_recv c.pending, rfl,
      drain_recv_only_recv _, drain_recv_only_recv _⟩, ?_⟩
  intro d hd
  have htr : (session_close p c).2
      = SockEv.shutdownWR :: (drain_recv p.pending ++ [SockEv.closeSock])
        ++ (SockEv.shutdownWR :: (drain_recv c.pending ++ [SockEv.closeSock])) := rfl
  rw [htr] at hd
  simp at hd
  rcases hd with hd | hd
  · exact sendData_not_mem_drain d p.pending hd
  · exact sendData_not_mem_drain d c.pending hd

/-- C6: with a cancellation among the events, the listener accepts exactly
the connections that precede it, then joins a list of session threads that
contains every session accepted and still active at cancellation time,
then closes the listening socket, and the process exit status is 0. -/
theorem C6_shutdown_drain (events : List LEvent) (h : hasCancel events = true) :
    ∃ joins : List Nat,
      handle_exit_run events
        = some ((acceptsOf events).map LTrace.accept
            ++ (joins.map LTrace.joinThread ++ [LTrace.closeListener]), 0) ∧
      ∀ i : Nat, i ∈ acceptsOf events → i ∉ endedOf events → i ∈ joins := by
  refine ⟨finalThreads events ⟨[], []⟩, ?_, ?_⟩
  · rw [handle_exit_run, listener_run_trace events ⟨[], []⟩ h]
    rfl
  · intro i hi hne
    exact mem_finalThreads events ⟨[], []⟩ i (Or.inr hi) (by simp) hne

/-- C6 witness: two connections accepted, one of them already terminated,
then cancellation, then a late connection that is never accepted. -/
theorem C6_shutdown_drain_witness :
    ∃ joins : List Nat,
      handle_exit_run
          [LEvent.conn 1, LEvent.conn 2, LEvent.ended 1, LEvent.cancel, LEvent.conn 3]
        = some ((acceptsOf
            [LEvent.conn 1, LEvent.conn 2, LEvent.ended 1, LEvent.cancel, LEvent.conn 3]).map
              LTrace.accept
            ++ (joins.map LTrace.joinThread ++ [LTrace.closeListener]), 0) ∧
      ∀ i : Nat,
        i ∈ acceptsOf
            [LEvent.conn 1, LEvent.conn 2, LEvent.ended 1, LEvent.cancel, LEvent.conn 3] →
        i ∉ endedOf
            [LEvent.conn 1, LEvent.conn 2, LEvent.ended 1, LEvent.cancel, LEvent.conn 3] →
        i ∈ joins :=
  C6_shutdown_drain
    [LEvent.conn 1, LEvent.conn 2, LEvent.ended 1, LEvent.cancel, LEvent.conn 3]
    (by decide)

/-- C7: the per-read caps of proxy.py line 229 are direction-specific:
reads from the client socket request at most `MAX_DATA_IMG = 20000000`
bytes and reads from the printer socket at most `MAX_DATA_XML = 50000`
bytes, and `socket_read` never returns more than the cap. -/
theorem C7_direction_read_caps :
    read_max_bytes true = MAX_DATA_IMG ∧
    read_max_bytes false = MAX_DATA_XML ∧
    MAX_DATA_IMG = 20000000 ∧
    MAX_DATA_XML = 50000 ∧
    (∀ (avail : List Nat) (b : Bool),
      (socket_read avail (read_max_bytes b)).length ≤ read_max_bytes b) := by
  refine ⟨rfl, rfl, rfl, rfl, ?_⟩
  intro avail b
  show (avail.take (read_max_bytes b)).length ≤ read_max_bytes b
  rw [List.length_take]
  exact Nat.min_le_left _ _

/-- C8: the stop flag is monotone under every operation the program
performs on it: each either leaves the flag unchanged or sets it, a set
flag stays set under every operation, and setting an already-set flag is
a no-op. -/
theorem C8_flag_monotone :
    (∀ (op : FlagOp) (b : Bool), flag_apply op b = b ∨ flag_apply op b = true) ∧
    (∀ op : FlagOp, flag_apply op true = true) ∧
    flag_apply FlagOp.setOp true = true := by
  refine ⟨?_, ?_, rfl⟩
  · intro op b
    cases op
    · exact Or.inr rfl
    · exact Or.inl rfl
    · exact Or.inl rfl
  · intro op
    cases op <;> rfl

/-- C9: the classification boundary is strict: a chunk of length exactly
`MAX_DATA_XML = 50000` is still scanned and rewritten at the first marker
occurrence, while only chunks strictly longer are passed through as
binary. -/
theorem C9_threshold_boundary :
    (∀ (data : List Nat) (p : Nat), data.length = MAX_DATA_XML →
        end_tag.isPrefixOf (data.drop p) = true →
        (∀ q, q < p → end_tag.isPrefixOf (data.drop q) = false) →
        modify_xml data = data.take p ++ new_line ++ data.drop p) ∧
    (∀ data : List Nat, MAX_DATA_XML < data.length → modify_xml data = data) := by
  constructor
  · intro data p hlen h1 h2
    exact modify_xml_insert data p (Nat.le_of_eq hlen) h1 h2
  · exact modify_xml_big

/-- C9 witness: a 50,000-byte chunk starting with `</print>` is rewritten
(the directive lands at index 0). -/
theorem C9_threshold_boundary_witness :
    (bstr "</print>" ++ List.replicate 49992 48).length = MAX_DATA_XML ∧
    modify_xml (bstr "</print>" ++ List.replicate 49992 48)
      = (bstr "</print>" ++ List.replicate 49992 48).take 0 ++ new_line
        ++ (bstr "</print>" ++ List.replicate 49992 48).drop 0 := by
  have h8 : (bstr "</print>").length = 8 := by decide
  have hlen : (bstr "</print>" ++ List.replicate 49992 48).length = MAX_DATA_XML := by
    rw [List.length_append, h8, List.length_replicate]
    decide
  refine ⟨hlen, C9_threshold_boundary.1 (bstr "</print>" ++ List.replicate 49992 48) 0 hlen ?_ ?_⟩
  · rw [List.drop_zero]
    show (bstr "</print>").isPrefixOf (bstr "</print>" ++ List.replicate 49992 48) = true
    exact isPrefixOf_append_self _ _
  · intro q hq
    exact absurd hq (Nat.not_lt_zero q)

/-- C10: `modify_xml` is not idempotent: on `b"<print></print>"` a second
application inserts a second directive line before the first `</print>`,
so applying it twice differs from applying it once. -/
theorem C10_not_idempotent :
    modify_xml (modify_xml (bstr "<print></print>"))
      ≠ modify_xml (bstr "<print></print>") ∧
    modify_xml (modify_xml (bstr "<print></print>"))
      = bstr "<print><cutmode>full</cutmode>\n<cutmode>full</cutmode>\n</print>" := by
  decide

end VC500W
